import Mathlib

/-!
Shallow embedding of src/analyzer.py (SAST-Blame core analyzer) and proofs of
the specification claims about it.

The Python module defines pydantic models SastResult and BlameInfo and a class
SastAnalyzer with methods run_semgrep, get_blame_info, _get_gitlab_blame,
_get_github_blame and analyze_repository.  External effects (the semgrep
subprocess and the two VCS client libraries) are modelled as explicit inputs
carried in an Env record: the semgrep process outcome per path, and the blame
responses of each backend per (repo_url, file_path), an Except whose error case
stands for any exception the client raises (network, auth, missing file).
Python exceptions inside the analyzer are modelled with Option / Except;
Python dict semantics (insertion order, last-write-wins assignment) are
modelled by dictInsert / dictFind on association lists.
-/

namespace SastBlame

/-- A JSON value, as produced by json.loads on semgrep stdout.  Numeric
payloads are modelled as integers (the only number the analyzer reads is
start.line). -/
inductive Json where
  | null : Json
  | boolVal : Bool → Json
  | num : Int → Json
  | str : String → Json
  | arr : List Json → Json
  | obj : List (String × Json) → Json

/-- Model of the pydantic SastResult: one SAST finding. -/
structure SastResult where
  file : String
  line : Int
  message : String
  severity : String
  rule_id : String
deriving DecidableEq, Repr

/-- Model of the pydantic BlameInfo: blame information for a line of code. -/
structure BlameInfo where
  author : String
  commit : String
  date : String
deriving DecidableEq, Repr

/-- A datetime object as returned by the GitHub client; only its isoformat
serialization is observed by the analyzer. -/
structure Datetime where
  iso : String
deriving DecidableEq, Repr

/-- Model of datetime.isoformat(). -/
def Datetime.isoformat (d : Datetime) : String := d.iso

/-- One entry of the GitLab blame response: the analyzer reads
entry["lines"]["start"], entry["lines"]["end"] and the nested commit fields
entry["commit"]["author_name"], ["id"], ["committed_date"]. -/
structure GitlabEntry where
  lines_start : Int
  lines_end : Int
  commit_author_name : String
  commit_id : String
  commit_committed_date : String
deriving DecidableEq, Repr

/-- The nested commit of a GitHub blame entry: the analyzer reads
commit.author.name, commit.sha and commit.committed_date.isoformat(). -/
structure GithubCommit where
  author_name : String
  sha : String
  committed_date : Datetime
deriving DecidableEq, Repr

/-- One entry of the GitHub blame response: a lines list (line numbers) and a
nested commit. -/
structure GithubEntry where
  lines : List Int
  commit : GithubCommit
deriving DecidableEq, Repr

/-- Outcome of subprocess.run for the semgrep invocation: the exit status and
the result of json.loads on the captured stdout (none when stdout is not
valid JSON, so that json.loads raises). -/
structure ProcResult where
  returncode : Int
  stdout_json : Option Json

/-- The external world the analyzer interacts with: the semgrep process
outcome for a path, and each backend's blame response for a
(repo_url, file_path) pair.  An error response stands for any exception
raised by the client call chain. -/
structure Env where
  semgrep : String → ProcResult
  gitlabResp : String → String → Except Unit (List GitlabEntry)
  githubResp : String → String → Except Unit (List GithubEntry)

/-- The SastAnalyzer state set up by __init__: the two optional tokens. -/
structure SastAnalyzer where
  gitlab_token : Option String
  github_token : Option String
deriving DecidableEq, Repr

/-- Python truthiness of an optional string: None and the empty string are
falsy. -/
def optTruthy : Option String → Bool
  | none => false
  | some s => s != ""

/-- __init__ builds gitlab_client only when gitlab_token is truthy; the client
object itself is opaque, so only its presence is modelled. -/
def SastAnalyzer.gitlab_client (a : SastAnalyzer) : Bool :=
  optTruthy a.gitlab_token

/-- __init__ builds github_client only when github_token is truthy. -/
def SastAnalyzer.github_client (a : SastAnalyzer) : Bool :=
  optTruthy a.github_token

/-- Whether pat is a prefix of s, on character lists. -/
def isPrefixChars : List Char → List Char → Bool
  | [], _ => true
  | _ :: _, [] => false
  | p :: ps, c :: cs => p == c && isPrefixChars ps cs

/-- Whether pat occurs as a contiguous substring, on character lists. -/
def containsChars (pat : List Char) : List Char → Bool
  | [] => isPrefixChars pat []
  | c :: cs => isPrefixChars pat (c :: cs) || containsChars pat cs

/-- Model of the Python substring test pat in s (case-sensitive, as in
Python). -/
def strContains (s pat : String) : Bool :=
  containsChars pat.data s.data

/-- Python dict lookup on an association list (first binding wins; dictInsert
keeps keys unique). -/
def dictFind {α : Type} : List (String × α) → String → Option α
  | [], _ => none
  | p :: rest, k => if p.1 = k then some p.2 else dictFind rest k

/-- Python dict assignment d[k] = v: update in place when the key exists
(keeping its position), append otherwise. -/
def dictInsert {α : Type} (m : List (String × α)) (k : String) (v : α) :
    List (String × α) :=
  if k ∈ m.map Prod.fst then
    m.map (fun p => if p.1 = k then (k, v) else p)
  else m ++ [(k, v)]

/-- The keys of an association-list dict, in order. -/
def dictKeys {α : Type} (m : List (String × α)) : List String :=
  m.map Prod.fst

/-- Python indexing j[k]: succeeds only on a dict that has the key
(KeyError / TypeError otherwise). -/
def pyIndex (j : Json) (k : String) : Option Json :=
  match j with
  | Json.obj fs => dictFind fs k
  | _ => none

/-- Python dict .get(k, dflt): AttributeError (none) when the value is not a
dict, the default when the key is missing. -/
def pyDictGet (j : Json) (k : String) (dflt : Json) : Option Json :=
  match j with
  | Json.obj fs =>
    match dictFind fs k with
    | some v => some v
    | none => some dflt
  | _ => none

/-- Python iteration over a JSON value: arrays yield their elements, strings
their one-character substrings, dicts their keys; other values raise
TypeError (none). -/
def pyIter : Json → Option (List Json)
  | Json.arr xs => some xs
  | Json.str s => some (s.data.map (fun c => Json.str (String.mk [c])))
  | Json.obj fs => some (fs.map (fun p => Json.str p.1))
  | _ => none

/-- Reading a JSON value as a string (pydantic str field). -/
def Json.asStr : Json → Option String
  | Json.str s => some s
  | _ => none

/-- Reading a JSON value as an integer (pydantic int field). -/
def Json.asInt : Json → Option Int
  | Json.num n => some n
  | _ => none

/-- Building one SastResult from one element of the results array, as the
comprehension body does: file=finding["path"], line=finding["start"]["line"],
message=finding["extra"]["message"], severity=finding["extra"]["severity"],
rule_id=finding["check_id"].  Any missing key or wrong shape raises, which
the surrounding try turns into the fatal RuntimeError. -/
def extractFinding (j : Json) : Option SastResult := do
  let f ← (pyIndex j "path").bind Json.asStr
  let st ← pyIndex j "start"
  let ln ← (pyIndex st "line").bind Json.asInt
  let ex ← pyIndex j "extra"
  let msg ← (pyIndex ex "message").bind Json.asStr
  let sev ← (pyIndex ex "severity").bind Json.asStr
  let rid ← (pyIndex j "check_id").bind Json.asStr
  some (SastResult.mk f ln msg sev rid)

/-- run_semgrep: runs the subprocess, parses stdout with json.loads, takes
findings.get("results", []) and builds the SastResult list.  Any exception
on the way is re-raised as RuntimeError("Semgrep analysis failed: ...").
The exit status of the process is never consulted (subprocess.run is called
without check=True and result.returncode is never read). -/
def run_semgrep (env : Env) (path : String) : Except String (List SastResult) :=
  let result := env.semgrep path
  match result.stdout_json with
  | none => Except.error "Semgrep analysis failed"
  | some findings =>
    match pyDictGet findings "results" (Json.arr []) with
    | none => Except.error "Semgrep analysis failed"
    | some resultsVal =>
      match pyIter resultsVal with
      | none => Except.error "Semgrep analysis failed"
      | some elems =>
        match elems.mapM extractFinding with
        | none => Except.error "Semgrep analysis failed"
        | some rs => Except.ok rs

/-- The scan loop of _get_gitlab_blame: first entry whose inclusive range
lines.start <= line <= lines.end contains the line yields the BlameInfo;
falling off the loop returns None. -/
def gitlabBlameScan (line : Int) : List GitlabEntry → Option BlameInfo
  | [] => none
  | e :: rest =>
    if e.lines_start ≤ line ∧ line ≤ e.lines_end then
      some (BlameInfo.mk e.commit_author_name e.commit_id e.commit_committed_date)
    else gitlabBlameScan line rest

/-- _get_gitlab_blame: fetch the blame response for (repo_url, file_path) and
scan it; any exception from the client (modelled by the error response) is
swallowed by the except clause and yields None. -/
def _get_gitlab_blame (env : Env) (repo_url file_path : String) (line : Int) :
    Option BlameInfo :=
  match env.gitlabResp repo_url file_path with
  | Except.error _ => none
  | Except.ok blame => gitlabBlameScan line blame

/-- The scan loop of _get_github_blame: the first entry with
entry.lines[0] <= line <= entry.lines[-1] yields the BlameInfo.  An entry
with an empty lines list makes entry.lines[0] raise IndexError, which the
except clause turns into None for the whole lookup (so scanning stops
there). -/
def githubBlameScan (line : Int) : List GithubEntry → Option BlameInfo
  | [] => none
  | e :: rest =>
    match e.lines with
    | [] => none
    | x :: xs =>
      if x ≤ line ∧ line ≤ xs.getLastD x then
        some (BlameInfo.mk e.commit.author_name e.commit.sha
          e.commit.committed_date.isoformat)
      else githubBlameScan line rest

/-- Whether a GitHub blame entry contains the line, the way the code tests
it: lines[0] <= line <= lines[-1]; an empty lines list contains nothing. -/
def githubContains (e : GithubEntry) (line : Int) : Bool :=
  match e.lines with
  | [] => false
  | x :: xs => decide (x ≤ line) && decide (line ≤ xs.getLastD x)

/-- _get_github_blame: fetch the blame response and scan it; any exception
from the client yields None. -/
def _get_github_blame (env : Env) (repo_url file_path : String) (line : Int) :
    Option BlameInfo :=
  match env.githubResp repo_url file_path with
  | Except.error _ => none
  | Except.ok blame => githubBlameScan line blame

/-- get_blame_info: dispatch on the repository URL.  The GitLab branch is
taken when the gitlab client exists and "gitlab" occurs in repo_url; else
the GitHub branch when the github client exists and "github" occurs; else
None. -/
def get_blame_info (a : SastAnalyzer) (env : Env) (repo_url file_path : String)
    (line : Int) : Option BlameInfo :=
  if a.gitlab_client && strContains repo_url "gitlab" then
    _get_gitlab_blame env repo_url file_path line
  else if a.github_client && strContains repo_url "github" then
    _get_github_blame env repo_url file_path line
  else none

/-- The two provider variants. -/
inductive Provider where
  | gitlab : Provider
  | github : Provider
deriving DecidableEq, Repr

/-- The provider-selection decision implicit in get_blame_info's conditional
chain, as its own function: which branch fires for a given analyzer state
and repository URL. -/
def selectProvider (a : SastAnalyzer) (repo_url : String) : Option Provider :=
  if a.gitlab_client && strContains repo_url "gitlab" then
    some Provider.gitlab
  else if a.github_client && strContains repo_url "github" then
    some Provider.github
  else none

/-- One value of the result mapping of analyze_repository: the dict literal
with keys "sast" and "blame". -/
structure Enriched where
  sast : SastResult
  blame : Option BlameInfo
deriving DecidableEq, Repr

/-- The f-string key of the result mapping. -/
def findingKey (r : SastResult) : String :=
  r.file ++ ":" ++ toString r.line

/-- analyze_repository: run semgrep (its RuntimeError propagates), then fold
every finding into the result dict with key file:line, enriching it with
get_blame_info. -/
def analyze_repository (a : SastAnalyzer) (env : Env) (repo_url path : String) :
    Except String (List (String × Enriched)) :=
  match run_semgrep env path with
  | Except.error e => Except.error e
  | Except.ok sast_results =>
    Except.ok (sast_results.foldl
      (fun m r => dictInsert m (findingKey r)
        (Enriched.mk r (get_blame_info a env repo_url r.file r.line)))
      [])

/-! Concrete data used to instantiate the theorems below. -/

/-- An analyzer configured with both tokens. -/
def tokBoth : SastAnalyzer := ⟨some "glpat-x", some "ghp-y"⟩

/-- An analyzer configured with zero credentials. -/
def tokNone : SastAnalyzer := ⟨none, none⟩

/-- A sample finding. -/
def finding1 : SastResult := ⟨"a.py", 3, "m", "HIGH", "rules.x"⟩

/-- The semgrep JSON element producing finding1. -/
def jFinding1 : Json := Json.obj
  [("path", Json.str "a.py"), ("start", Json.obj [("line", Json.num 3)]),
   ("extra", Json.obj [("message", Json.str "m"), ("severity", Json.str "HIGH")]),
   ("check_id", Json.str "rules.x")]

/-- First of two findings sharing the key b.py:5. -/
def d1 : SastResult := ⟨"b.py", 5, "m1", "HIGH", "rules.x"⟩

/-- Second of two findings sharing the key b.py:5. -/
def d2 : SastResult := ⟨"b.py", 5, "m2", "LOW", "rules.y"⟩

/-- The semgrep JSON element producing d1. -/
def jDup1 : Json := Json.obj
  [("path", Json.str "b.py"), ("start", Json.obj [("line", Json.num 5)]),
   ("extra", Json.obj [("message", Json.str "m1"), ("severity", Json.str "HIGH")]),
   ("check_id", Json.str "rules.x")]

/-- The semgrep JSON element producing d2. -/
def jDup2 : Json := Json.obj
  [("path", Json.str "b.py"), ("start", Json.obj [("line", Json.num 5)]),
   ("extra", Json.obj [("message", Json.str "m2"), ("severity", Json.str "LOW")]),
   ("check_id", Json.str "rules.y")]

/-- Builds an environment whose responses are constant in path and repo. -/
def mkEnv (rc : Int) (sj : Option Json) (gl : Except Unit (List GitlabEntry))
    (gh : Except Unit (List GithubEntry)) : Env :=
  { semgrep := fun _ => ⟨rc, sj⟩
    gitlabResp := fun _ _ => gl
    githubResp := fun _ _ => gh }

/-- A GitLab blame entry covering lines 1..20. -/
def glEntry1 : GitlabEntry := ⟨1, 20, "Ann", "abc123", "2024-01-01T00:00:00Z"⟩

/-- A GitHub commit used in witnesses. -/
def ghCommit1 : GithubCommit := ⟨"Bob", "def456", ⟨"2024-02-02T00:00:00Z"⟩⟩

/-- A GitHub blame entry covering lines 4..9. -/
def ghEntry1 : GithubEntry := ⟨[4, 5, 9], ghCommit1⟩

/-- Clean semgrep run with no findings; both blame backends raise. -/
def envErr : Env :=
  mkEnv 0 (some (Json.obj [("results", Json.arr [])])) (Except.error ()) (Except.error ())

/-- Clean semgrep run; both backends answer with ranges not containing line 100. -/
def envGlNoMatch : Env :=
  mkEnv 0 (some (Json.obj [("results", Json.arr [])]))
    (Except.ok [glEntry1]) (Except.ok [ghEntry1])

/-- Semgrep exits with status 1 yet prints a parseable finding. -/
def envNonzero : Env :=
  mkEnv 1 (some (Json.obj [("results", Json.arr [jFinding1])]))
    (Except.error ()) (Except.error ())

/-- Same stdout as envNonzero but exit status 0. -/
def envNonzeroRc0 : Env :=
  mkEnv 0 (some (Json.obj [("results", Json.arr [jFinding1])]))
    (Except.error ()) (Except.error ())

/-- Semgrep stdout is not valid JSON. -/
def envNoJson : Env := mkEnv 0 none (Except.error ()) (Except.error ())

/-- Semgrep stdout is a valid JSON object with no results key. -/
def envNoResults : Env := mkEnv 0 (some (Json.obj [])) (Except.error ()) (Except.error ())

/-- Semgrep stdout is a JSON number (not a dict). -/
def envBadShape : Env := mkEnv 0 (some (Json.num 5)) (Except.error ()) (Except.error ())

/-- One finding; the GitLab backend answers with glEntry1. -/
def envGl : Env :=
  mkEnv 0 (some (Json.obj [("results", Json.arr [jFinding1])]))
    (Except.ok [glEntry1]) (Except.error ())

/-- Two findings sharing the key b.py:5; both blame backends raise. -/
def envDup : Env :=
  mkEnv 0 (some (Json.obj [("results", Json.arr [jDup1, jDup2])]))
    (Except.error ()) (Except.error ())

/-- The result mapping for envDup: one entry, holding the later finding. -/
def mDup : List (String × Enriched) := [("b.py:5", ⟨d2, none⟩)]

/-- A GitLab range 30..40, not containing line 10. -/
def glEntryA : GitlabEntry := ⟨30, 40, "Xa", "shaA", "2024-03-01"⟩

/-- A GitLab range 5..15, the first one containing line 10. -/
def glEntryB : GitlabEntry := ⟨5, 15, "Yb", "shaB", "2024-03-02"⟩

/-- A GitLab range 1..50, also containing line 10 but listed later. -/
def glEntryC : GitlabEntry := ⟨1, 50, "Zc", "shaC", "2024-03-03"⟩

/-- A GitHub range 30..40, not containing line 10. -/
def ghEntryA : GithubEntry := ⟨[30, 31, 40], ⟨"Xa", "shaA", ⟨"2024-03-01"⟩⟩⟩

/-- A GitHub range 5..15, the first one containing line 10. -/
def ghEntryB : GithubEntry := ⟨[5, 6, 15], ⟨"Yb", "shaB", ⟨"2024-03-02"⟩⟩⟩

/-- A GitHub range 1..50, also containing line 10 but listed later. -/
def ghEntryC : GithubEntry := ⟨[1, 2, 50], ⟨"Zc", "shaC", ⟨"2024-03-03"⟩⟩⟩

/-- A locator containing both hosting markers. -/
def uBoth : String := "https://gitlab.example.com/mirrors/github.com/x"

/-! Helper lemmas about the dict model. -/

theorem dictKeys_update {α : Type} (m : List (String × α)) (k : String) (v : α) :
    dictKeys (m.map fun p => if p.1 = k then (k, v) else p) = dictKeys m := by
  induction m with
  | nil => rfl
  | cons p rest ih =>
    by_cases h : p.1 = k
    · simp only [dictKeys, List.map_cons, if_pos h] at ih ⊢
      simp [h, ih]
    · simp only [dictKeys, List.map_cons, if_neg h] at ih ⊢
      simp [ih]

theorem dictKeys_insert {α : Type} (m : List (String × α)) (k : String) (v : α) :
    dictKeys (dictInsert m k v) =
      if k ∈ dictKeys m then dictKeys m else dictKeys m ++ [k] := by
  unfold dictInsert
  by_cases h : k ∈ m.map Prod.fst
  · rw [if_pos h, if_pos (by simpa [dictKeys] using h), dictKeys_update]
  · rw [if_neg h, if_neg (by simpa [dictKeys] using h)]
    simp [dictKeys]

theorem mem_dictKeys_insert {α : Type} (m : List (String × α)) (k : String) (v : α)
    (k' : String) :
    k' ∈ dictKeys (dictInsert m k v) ↔ k' ∈ dictKeys m ∨ k' = k := by
  rw [dictKeys_insert]
  by_cases h : k ∈ dictKeys m
  · rw [if_pos h]
    constructor
    · exact fun hk => Or.inl hk
    · rintro (hk | rfl) <;> [exact hk; exact h]
  · rw [if_neg h]
    simp

theorem nodup_dictKeys_insert {α : Type} (m : List (String × α)) (k : String) (v : α)
    (h : (dictKeys m).Nodup) : (dictKeys (dictInsert m k v)).Nodup := by
  rw [dictKeys_insert]
  by_cases hk : k ∈ dictKeys m
  · rwa [if_pos hk]
  · rw [if_neg hk]
    simp [List.nodup_append, h, hk]

theorem dictFind_update_self {α : Type} (m : List (String × α)) (k : String) (v : α)
    (h : k ∈ dictKeys m) :
    dictFind (m.map fun p => if p.1 = k then (k, v) else p) k = some v := by
  induction m with
  | nil => simp [dictKeys] at h
  | cons p rest ih =>
    simp only [List.map_cons]
    by_cases hp : p.1 = k
    · rw [if_pos hp]
      simp [dictFind]
    · rw [if_neg hp]
      have hr : k ∈ dictKeys rest := by
        simp only [dictKeys, List.map_cons, List.mem_cons] at h
        rcases h with h | h
        · exact absurd h.symm hp
        · exact h
      simp [dictFind, hp, ih hr]

theorem dictFind_update_ne {α : Type} (m : List (String × α)) (k : String) (v : α)
    (k' : String) (h : k' ≠ k) :
    dictFind (m.map fun p => if p.1 = k then (k, v) else p) k' = dictFind m k' := by
  induction m with
  | nil => rfl
  | cons p rest ih =>
    simp only [List.map_cons]
    by_cases hp : p.1 = k
    · have h1 : ¬ k = k' := fun hkk => h hkk.symm
      have h2 : ¬ p.1 = k' := by rw [hp]; exact h1
      rw [if_pos hp]
      simp [dictFind, h1, h2, ih]
    · rw [if_neg hp]
      simp [dictFind, ih]

theorem dictFind_append_single {α : Type} (m : List (String × α)) (k : String) (v : α)
    (k' : String) (hm : k ∉ dictKeys m) :
    dictFind (m ++ [(k, v)]) k' = if k' = k then some v else dictFind m k' := by
  induction m with
  | nil =>
    by_cases hk : k' = k
    · simp [dictFind, hk]
    · have hk2 : ¬ k = k' := fun hh => hk hh.symm
      simp [dictFind, hk, hk2]
  | cons p rest ih =>
    simp only [dictKeys, List.map_cons, List.mem_cons, not_or] at hm
    by_cases hpk : p.1 = k'
    · have hk : ¬ k' = k := fun hh => hm.1 (hpk.trans hh).symm
      simp [dictFind, hpk, hk]
    · simp only [List.cons_append, dictFind, if_neg hpk]
      exact ih hm.2

theorem dictFind_insert {α : Type} (m : List (String × α)) (k : String) (v : α)
    (k' : String) :
    dictFind (dictInsert m k v) k' = if k' = k then some v else dictFind m k' := by
  unfold dictInsert
  by_cases hm : k ∈ m.map Prod.fst
  · rw [if_pos hm]
    by_cases hk : k' = k
    · subst hk
      rw [if_pos rfl]
      exact dictFind_update_self m k' v (by simpa [dictKeys] using hm)
    · rw [if_neg hk]
      exact dictFind_update_ne m k v k' hk
  · rw [if_neg hm]
    exact dictFind_append_single m k v k' (by simpa [dictKeys] using hm)

theorem dictFind_isSome_of_mem {α : Type} (m : List (String × α)) (k : String)
    (h : k ∈ dictKeys m) : ∃ v, dictFind m k = some v := by
  induction m with
  | nil => simp [dictKeys] at h
  | cons p rest ih =>
    by_cases hp : p.1 = k
    · exact ⟨p.2, by simp [dictFind, hp]⟩
    · have hr : k ∈ dictKeys rest := by
        simp only [dictKeys, List.map_cons, List.mem_cons] at h
        rcases h with h | h
        · exact absurd h.symm hp
        · exact h
      obtain ⟨v, hv⟩ := ih hr
      exact ⟨v, by simp [dictFind, hp, hv]⟩

theorem mem_dictKeys_foldInsert {α β : Type} (key : β → String) (val : β → α)
    (rs : List β) (m : List (String × α)) (k : String) :
    k ∈ dictKeys (rs.foldl (fun acc r => dictInsert acc (key r) (val r)) m) ↔
      k ∈ dictKeys m ∨ k ∈ rs.map key := by
  induction rs generalizing m with
  | nil => simp
  | cons r rest ih =>
    rw [List.foldl_cons, ih, mem_dictKeys_insert]
    simp only [List.map_cons, List.mem_cons]
    tauto

theorem nodup_dictKeys_foldInsert {α β : Type} (key : β → String) (val : β → α)
    (rs : List β) (m : List (String × α)) (h : (dictKeys m).Nodup) :
    (dictKeys (rs.foldl (fun acc r => dictInsert acc (key r) (val r)) m)).Nodup := by
  induction rs generalizing m with
  | nil => exact h
  | cons r rest ih => exact ih _ (nodup_dictKeys_insert _ _ _ h)

theorem dictFind_foldInsert {α β : Type} (key : β → String) (val : β → α)
    (rs : List β) (m : List (String × α)) (k : String) :
    dictFind (rs.foldl (fun acc r => dictInsert acc (key r) (val r)) m) k =
      match (rs.filter fun r => decide (key r = k)).getLast? with
      | some r => some (val r)
      | none => dictFind m k := by
  induction rs generalizing m with
  | nil => rfl
  | cons r rest ih =>
    rw [List.foldl_cons, ih]
    by_cases h : key r = k
    · rw [List.filter_cons_of_pos (by simpa using h)]
      cases hf : rest.filter (fun r => decide (key r = k)) with
      | nil => simp [dictFind_insert, h]
      | cons y ys =>
        rw [List.getLast?_cons_cons]
        cases hg : (y :: ys).getLast? with
        | none => simp at hg
        | some z => rfl
    · rw [List.filter_cons_of_neg (by simpa using h)]
      have h2 : ¬ k = key r := fun hh => h hh.symm
      rw [dictFind_insert, if_neg h2]

theorem mem_dictInsert_vals {α : Type} (P : α → Prop) (m : List (String × α))
    (k : String) (v : α) (p : String × α)
    (hm : ∀ q ∈ m, P q.2) (hv : P v) (hp : p ∈ dictInsert m k v) : P p.2 := by
  unfold dictInsert at hp
  split at hp
  · obtain ⟨q, hq, rfl⟩ := List.mem_map.mp hp
    by_cases hq1 : q.1 = k
    · rw [if_pos hq1]
      exact hv
    · rw [if_neg hq1]
      exact hm q hq
  · rcases List.mem_append.mp hp with hp | hp
    · exact hm p hp
    · have hpe : p = (k, v) := by simpa using hp
      rw [hpe]
      exact hv

theorem foldInsert_vals {α β : Type} (P : α → Prop) (key : β → String) (val : β → α)
    (rs : List β) (m : List (String × α))
    (hm : ∀ p ∈ m, P p.2) (hv : ∀ r, P (val r)) :
    ∀ p ∈ rs.foldl (fun acc r => dictInsert acc (key r) (val r)) m, P p.2 := by
  induction rs generalizing m with
  | nil => exact hm
  | cons r rest ih =>
    refine ih _ ?_
    intro p hp
    exact mem_dictInsert_vals P m (key r) (val r) p hm (hv r) hp

/-! Helper lemmas about the blame scans. -/

theorem gitlabBlameScan_none (line : Int) (entries : List GitlabEntry)
    (h : ∀ e ∈ entries, ¬(e.lines_start ≤ line ∧ line ≤ e.lines_end)) :
    gitlabBlameScan line entries = none := by
  induction entries with
  | nil => rfl
  | cons e rest ih =>
    simp only [gitlabBlameScan]
    rw [if_neg (h e (List.mem_cons_self e rest))]
    exact ih (fun e' he' => h e' (List.mem_cons_of_mem e he'))

theorem githubBlameScan_none (line : Int) (entries : List GithubEntry)
    (h : ∀ e ∈ entries, githubContains e line = false) :
    githubBlameScan line entries = none := by
  induction entries with
  | nil => rfl
  | cons e rest ih =>
    have he := h e (List.mem_cons_self e rest)
    cases hl : e.lines with
    | nil => simp [githubBlameScan, hl]
    | cons x xs =>
      simp only [githubContains, hl] at he
      have hcond : ¬(x ≤ line ∧ line ≤ xs.getLastD x) := by
        rintro ⟨h1, h2⟩
        rw [decide_eq_true h1, decide_eq_true h2] at he
        simp at he
      simp only [githubBlameScan, hl]
      rw [if_neg hcond]
      exact ih (fun e' he' => h e' (List.mem_cons_of_mem e he'))

theorem gitlabBlameScan_first (line : Int) (pre post : List GitlabEntry) (e : GitlabEntry)
    (hpre : ∀ e' ∈ pre, ¬(e'.lines_start ≤ line ∧ line ≤ e'.lines_end))
    (he : e.lines_start ≤ line ∧ line ≤ e.lines_end) :
    gitlabBlameScan line (pre ++ e :: post) =
      some (BlameInfo.mk e.commit_author_name e.commit_id e.commit_committed_date) := by
  induction pre with
  | nil =>
    simp only [List.nil_append, gitlabBlameScan]
    rw [if_pos he]
  | cons e' rest ih =>
    simp only [List.cons_append, gitlabBlameScan]
    rw [if_neg (hpre e' (List.mem_cons_self e' rest))]
    exact ih (fun q hq => hpre q (List.mem_cons_of_mem e' hq))

theorem githubBlameScan_first (line : Int) (gpre gpost : List GithubEntry) (g : GithubEntry)
    (hpre : ∀ g' ∈ gpre, g'.lines ≠ [] ∧ githubContains g' line = false)
    (hg : githubContains g line = true) :
    githubBlameScan line (gpre ++ g :: gpost) =
      some (BlameInfo.mk g.commit.author_name g.commit.sha
        g.commit.committed_date.isoformat) := by
  induction gpre with
  | nil =>
    simp only [List.nil_append]
    cases hl : g.lines with
    | nil => simp [githubContains, hl] at hg
    | cons x xs =>
      simp only [githubContains, hl, Bool.and_eq_true, decide_eq_true_eq] at hg
      simp only [githubBlameScan, hl]
      rw [if_pos hg]
  | cons g' rest ih =>
    obtain ⟨hne, hfalse⟩ := hpre g' (List.mem_cons_self g' rest)
    cases hl : g'.lines with
    | nil => exact absurd hl hne
    | cons x xs =>
      simp only [githubContains, hl] at hfalse
      have hcond : ¬(x ≤ line ∧ line ≤ xs.getLastD x) := by
        rintro ⟨h1, h2⟩
        rw [decide_eq_true h1, decide_eq_true h2] at hfalse
        simp at hfalse
      simp only [List.cons_append, githubBlameScan, hl]
      rw [if_neg hcond]
      exact ih (fun q hq => hpre q (List.mem_cons_of_mem g' hq))

/-- get_blame_info computes exactly the provider chosen by the conditional
chain, then that provider's lookup. -/
theorem get_blame_info_selectProvider (a : SastAnalyzer) (env : Env)
    (u f : String) (line : Int) :
    get_blame_info a env u f line =
      match selectProvider a u with
      | some Provider.gitlab => _get_gitlab_blame env u f line
      | some Provider.github => _get_github_blame env u f line
      | none => none := by
  unfold get_blame_info selectProvider
  by_cases h1 : (a.gitlab_client && strContains u "gitlab") = true
  · rw [if_pos h1, if_pos h1]
  · rw [if_neg h1, if_neg h1]
    by_cases h2 : (a.github_client && strContains u "github") = true
    · rw [if_pos h2, if_pos h2]
    · rw [if_neg h2, if_neg h2]

theorem filter_key_eq_nil {α : Type} (m : List (String × α)) (k : String)
    (hk : k ∉ dictKeys m) :
    m.filter (fun p => decide (p.1 = k)) = [] := by
  induction m with
  | nil => rfl
  | cons p rest ih =>
    simp only [dictKeys, List.map_cons, List.mem_cons, not_or] at hk
    rw [List.filter_cons_of_neg (by simpa using fun h => hk.1 h.symm)]
    exact ih (by simpa [dictKeys] using hk.2)

theorem filter_key_length_one {α : Type} (m : List (String × α)) (k : String)
    (hnodup : (dictKeys m).Nodup) (hk : k ∈ dictKeys m) :
    (m.filter (fun p => decide (p.1 = k))).length = 1 := by
  induction m with
  | nil => simp [dictKeys] at hk
  | cons p rest ih =>
    simp only [dictKeys, List.map_cons, List.nodup_cons] at hnodup
    by_cases hp : p.1 = k
    · rw [List.filter_cons_of_pos (by simpa using hp)]
      have hnil : rest.filter (fun p => decide (p.1 = k)) = [] := by
        refine filter_key_eq_nil rest k ?_
        rw [← hp]
        simpa [dictKeys] using hnodup.1
      simp [hnil]
    · rw [List.filter_cons_of_neg (by simpa using hp)]
      have hkr : k ∈ dictKeys rest := by
        simp only [dictKeys, List.map_cons, List.mem_cons] at hk
        rcases hk with hk | hk
        · exact absurd hk.symm hp
        · exact hk
      exact ih hnodup.2 hkr

/-! The claims. -/

/-- C1: any failure during a blame lookup — a raising client call (network,
auth, missing file) or no range containing the requested line — yields
None ("unknown") for that lookup, and once semgrep succeeded
analyze_repository always returns a mapping: no blame failure escapes
into it. -/
theorem blame_failures_resolve_unknown
    (a : SastAnalyzer) (env : Env) (u f path : String) (line : Int) :
    (env.gitlabResp u f = Except.error () → _get_gitlab_blame env u f line = none)
  ∧ (∀ entries, env.gitlabResp u f = Except.ok entries →
      (∀ e ∈ entries, ¬(e.lines_start ≤ line ∧ line ≤ e.lines_end)) →
      _get_gitlab_blame env u f line = none)
  ∧ (env.githubResp u f = Except.error () → _get_github_blame env u f line = none)
  ∧ (∀ entries, env.githubResp u f = Except.ok entries →
      (∀ e ∈ entries, githubContains e line = false) →
      _get_github_blame env u f line = none)
  ∧ ((run_semgrep env path).isOk = true → (analyze_repository a env u path).isOk = true) := by
  refine ⟨?_, ?_, ?_, ?_, ?_⟩
  · intro hresp
    unfold _get_gitlab_blame
    rw [hresp]
  · intro entries hresp hnone
    unfold _get_gitlab_blame
    rw [hresp]
    exact gitlabBlameScan_none line entries hnone
  · intro hresp
    unfold _get_github_blame
    rw [hresp]
  · intro entries hresp hnone
    unfold _get_github_blame
    rw [hresp]
    exact githubBlameScan_none line entries hnone
  · intro hok
    unfold analyze_repository
    cases hsem : run_semgrep env path with
    | error e =>
      rw [hsem] at hok
      exact Bool.noConfusion hok
    | ok rs => rfl

/-- Witness for C1 at concrete inputs: raising backends and non-matching
ranges both give None, and the analysis still returns a mapping. -/
theorem blame_failures_resolve_unknown_witness :
    _get_gitlab_blame envErr "u" "f" 7 = none
  ∧ _get_gitlab_blame envGlNoMatch "u" "f" 100 = none
  ∧ _get_github_blame envErr "u" "f" 7 = none
  ∧ _get_github_blame envGlNoMatch "u" "f" 100 = none
  ∧ (analyze_repository tokBoth envErr "u" ".").isOk = true := by
  have h1 := blame_failures_resolve_unknown tokBoth envErr "u" "f" "." 7
  have h2 := blame_failures_resolve_unknown tokBoth envGlNoMatch "u" "f" "." 100
  exact ⟨h1.1 rfl, h2.2.1 [glEntry1] rfl (by decide), h1.2.2.1 rfl,
    h2.2.2.2.1 [ghEntry1] rfl (by decide), h1.2.2.2.2 (by rfl)⟩

/-- C2: whenever semgrep returns a list of findings, analyze_repository
returns a mapping holding exactly one entry keyed file:line per finding,
each such key is present (whatever the blame environment did), and the
mapping's size is the number of findings after deduplication by their
file:line key. -/
theorem enrichment_entries_total_and_unique
    (a : SastAnalyzer) (env : Env) (u path : String) (rs : List SastResult)
    (h : run_semgrep env path = Except.ok rs) :
    ∃ m, analyze_repository a env u path = Except.ok m
      ∧ (∀ r ∈ rs, (m.filter (fun p => decide (p.1 = findingKey r))).length = 1)
      ∧ (∀ r ∈ rs, ∃ v, dictFind m (findingKey r) = some v)
      ∧ m.length = (rs.map findingKey).dedup.length := by
  refine ⟨rs.foldl (fun acc r => dictInsert acc (findingKey r)
      (Enriched.mk r (get_blame_info a env u r.file r.line))) [], ?_, ?_, ?_, ?_⟩
  · unfold analyze_repository
    rw [h]
  · intro r hr
    have hnodup := nodup_dictKeys_foldInsert findingKey
      (fun r => Enriched.mk r (get_blame_info a env u r.file r.line)) rs []
      (by simp [dictKeys])
    have hmem := (mem_dictKeys_foldInsert findingKey
      (fun r => Enriched.mk r (get_blame_info a env u r.file r.line)) rs []
      (findingKey r)).mpr (Or.inr (List.mem_map_of_mem findingKey hr))
    exact filter_key_length_one _ _ hnodup hmem
  · intro r hr
    exact dictFind_isSome_of_mem _ _ ((mem_dictKeys_foldInsert findingKey
      (fun r => Enriched.mk r (get_blame_info a env u r.file r.line)) rs []
      (findingKey r)).mpr (Or.inr (List.mem_map_of_mem findingKey hr)))
  · have hnodup := nodup_dictKeys_foldInsert findingKey
      (fun r => Enriched.mk r (get_blame_info a env u r.file r.line)) rs []
      (by simp [dictKeys])
    have hfin : (dictKeys (rs.foldl (fun acc r => dictInsert acc (findingKey r)
        (Enriched.mk r (get_blame_info a env u r.file r.line))) [])).toFinset =
        (rs.map findingKey).toFinset := by
      ext k
      simp only [List.mem_toFinset]
      rw [mem_dictKeys_foldInsert]
      simp [dictKeys]
    have h3 : (rs.foldl (fun acc r => dictInsert acc (findingKey r)
        (Enriched.mk r (get_blame_info a env u r.file r.line))) []).length =
        (dictKeys (rs.foldl (fun acc r => dictInsert acc (findingKey r)
          (Enriched.mk r (get_blame_info a env u r.file r.line))) [])).length := by
      simp [dictKeys]
    rw [h3, ← List.toFinset_card_of_nodup hnodup, hfin, List.card_toFinset]

/-- Witness for C2 at a concrete run with two findings sharing one key. -/
theorem enrichment_entries_total_and_unique_witness :
    ∃ m, analyze_repository tokBoth envDup "u" "." = Except.ok m
      ∧ (∀ r ∈ [d1, d2], (m.filter (fun p => decide (p.1 = findingKey r))).length = 1)
      ∧ (∀ r ∈ [d1, d2], ∃ v, dictFind m (findingKey r) = some v)
      ∧ m.length = (([d1, d2].map findingKey).dedup).length :=
  enrichment_entries_total_and_unique tokBoth envDup "u" "." [d1, d2] (by rfl)

/-- C3 counterexample: the marker match is NOT case-insensitive.  With both
clients configured, the lowercase locator selects the GitLab provider and
resolves blame, while the same locator with the marker upper-cased selects
no provider and yields None. -/
theorem provider_match_case_sensitivity_cex :
    selectProvider tokBoth "https://gitlab.example.com/g/p" = some Provider.gitlab
  ∧ selectProvider tokBoth "https://GITLAB.example.com/g/p" = none
  ∧ get_blame_info tokBoth envGl "https://gitlab.example.com/g/p" "src/a.py" 10 =
      some (BlameInfo.mk "Ann" "abc123" "2024-01-01T00:00:00Z")
  ∧ get_blame_info tokBoth envGl "https://GITLAB.example.com/g/p" "src/a.py" 10 = none :=
  ⟨by decide, by decide, by rfl, by rfl⟩

/-- C3 amended: the match of the locator against the hosting markers is
case-sensitive exact-substring matching — a backend is selected exactly when
its client is configured and the locator contains its marker verbatim
(GitLab tried first), and when neither matches the blame is None. -/
theorem provider_match_is_case_sensitive
    (a : SastAnalyzer) (env : Env) (u f : String) (line : Int) :
    (selectProvider a u = some Provider.gitlab ↔
      a.gitlab_client = true ∧ strContains u "gitlab" = true)
  ∧ (selectProvider a u = some Provider.github ↔
      a.github_client = true ∧ strContains u "github" = true ∧
      ¬(a.gitlab_client = true ∧ strContains u "gitlab" = true))
  ∧ (selectProvider a u = none → get_blame_info a env u f line = none) := by
  unfold selectProvider
  by_cases h1 : (a.gitlab_client && strContains u "gitlab") = true
  · rw [if_pos h1]
    simp only [Bool.and_eq_true] at h1
    refine ⟨by simp [h1], by simp [h1], ?_⟩
    intro hcontra
    exact absurd hcontra (by simp)
  · rw [if_neg h1]
    simp only [Bool.and_eq_true] at h1
    by_cases h2 : (a.github_client && strContains u "github") = true
    · rw [if_pos h2]
      simp only [Bool.and_eq_true] at h2
      refine ⟨by simp [h1], by simp [h1, h2], ?_⟩
      intro hcontra
      exact absurd hcontra (by simp)
    · rw [if_neg h2]
      simp only [Bool.and_eq_true] at h2
      refine ⟨by simp [h1], ?_, ?_⟩
      · constructor
        · intro hcontra
          exact absurd hcontra (by simp)
        · rintro ⟨hA, hB, _⟩
          exact absurd ⟨hA, hB⟩ h2
      · intro _
        unfold get_blame_info
        rw [if_neg (by simpa [Bool.and_eq_true] using h1),
          if_neg (by simpa [Bool.and_eq_true] using h2)]

/-- Witness for C3 amended: a locator matching neither marker yields None. -/
theorem provider_match_is_case_sensitive_witness :
    get_blame_info tokBoth envGl "https://bitbucket.org/x" "f" 1 = none := by
  have h := provider_match_is_case_sensitive tokBoth envGl "https://bitbucket.org/x" "f" 1
  exact h.2.2 (by decide)

/-- C4 counterexample: semgrep exits with status 1 while printing parseable
JSON, yet run_semgrep succeeds with the findings and analyze_repository
returns a mapping — a non-zero exit status alone is not fatal. -/
theorem semgrep_nonzero_exit_not_fatal_cex :
    (envNonzero.semgrep ".").returncode = 1
  ∧ run_semgrep envNonzero "." = Except.ok [finding1]
  ∧ analyze_repository tokBoth envNonzero "https://gitlab.example.com/g/p" "." =
      Except.ok [("a.py:3", Enriched.mk finding1 none)] :=
  ⟨rfl, rfl, rfl⟩

/-- C4 amended: run_semgrep never consults the exit status — its outcome is a
function of the parsed stdout only — and it fails fatally when stdout is not
parseable JSON. -/
theorem run_semgrep_ignores_exit_status (env env' : Env) (path : String) :
    ((env.semgrep path).stdout_json = (env'.semgrep path).stdout_json →
      run_semgrep env path = run_semgrep env' path)
  ∧ ((env.semgrep path).stdout_json = none →
      run_semgrep env path = Except.error "Semgrep analysis failed") := by
  constructor
  · intro h
    simp only [run_semgrep]
    rw [h]
  · intro h
    simp only [run_semgrep]
    rw [h]

/-- Witness for C4 amended: same stdout under exit statuses 1 and 0 gives the
same result, and unparseable stdout gives the fatal error. -/
theorem run_semgrep_ignores_exit_status_witness :
    run_semgrep envNonzero "." = run_semgrep envNonzeroRc0 "."
  ∧ run_semgrep envNoJson "." = Except.error "Semgrep analysis failed" :=
  ⟨(run_semgrep_ignores_exit_status envNonzero envNonzeroRc0 ".").1 rfl,
   (run_semgrep_ignores_exit_status envNoJson envNoJson ".").2 rfl⟩

/-- C5 counterexample: a valid JSON object with no results key is not fatal —
findings.get("results", []) defaults to the empty list, so run_semgrep
returns no findings and the analysis proceeds to an empty mapping. -/
theorem missing_results_key_not_fatal_cex :
    (envNoResults.semgrep ".").stdout_json = some (Json.obj [])
  ∧ run_semgrep envNoResults "." = Except.ok []
  ∧ analyze_repository tokBoth envNoResults "u" "." = Except.ok [] :=
  ⟨rfl, rfl, rfl⟩

/-- C5 amended: when stdout parses to a JSON object without a results key,
run_semgrep proceeds with the empty finding list; a non-dict JSON document
(here: a number) is fatal instead. -/
theorem run_semgrep_missing_results_key_empty (env : Env) (path : String)
    (fs : List (String × Json)) :
    ((env.semgrep path).stdout_json = some (Json.obj fs) →
      dictFind fs "results" = none → run_semgrep env path = Except.ok [])
  ∧ (∀ n : Int, (env.semgrep path).stdout_json = some (Json.num n) →
      run_semgrep env path = Except.error "Semgrep analysis failed") := by
  constructor
  · intro h hf
    simp only [run_semgrep]
    rw [h]
    simp only [pyDictGet]
    rw [hf]
    rfl
  · intro n h
    simp only [run_semgrep]
    rw [h]
    rfl

/-- Witness for C5 amended at the concrete environments. -/
theorem run_semgrep_missing_results_key_empty_witness :
    run_semgrep envNoResults "." = Except.ok []
  ∧ run_semgrep envBadShape "." = Except.error "Semgrep analysis failed" :=
  ⟨(run_semgrep_missing_results_key_empty envNoResults "." []).1 rfl rfl,
   (run_semgrep_missing_results_key_empty envBadShape "." []).2 5 rfl⟩

/-- C6: range containment is inclusive on both ends for both providers — a
line equal to the range's start or to its end matches that range (GitLab:
lines.start and lines.end; GitHub: the first and the last element of the
lines list). -/
theorem range_containment_inclusive
    (e : GitlabEntry) (rest : List GitlabEntry)
    (g : GithubEntry) (grest : List GithubEntry) (x : Int) (xs : List Int)
    (hse : e.lines_start ≤ e.lines_end)
    (hgl : g.lines = x :: xs) (hxe : x ≤ xs.getLastD x) :
    gitlabBlameScan e.lines_start (e :: rest) =
      some (BlameInfo.mk e.commit_author_name e.commit_id e.commit_committed_date)
  ∧ gitlabBlameScan e.lines_end (e :: rest) =
      some (BlameInfo.mk e.commit_author_name e.commit_id e.commit_committed_date)
  ∧ githubBlameScan x (g :: grest) =
      some (BlameInfo.mk g.commit.author_name g.commit.sha
        g.commit.committed_date.isoformat)
  ∧ githubBlameScan (xs.getLastD x) (g :: grest) =
      some (BlameInfo.mk g.commit.author_name g.commit.sha
        g.commit.committed_date.isoformat) := by
  refine ⟨?_, ?_, ?_, ?_⟩
  · simp only [gitlabBlameScan]
    rw [if_pos ⟨le_refl _, hse⟩]
  · simp only [gitlabBlameScan]
    rw [if_pos ⟨hse, le_refl _⟩]
  · simp only [githubBlameScan, hgl]
    rw [if_pos ⟨le_refl _, hxe⟩]
  · simp only [githubBlameScan, hgl]
    rw [if_pos ⟨hxe, le_refl _⟩]

/-- Witness for C6 on concrete ranges 1..20 (GitLab) and [4,5,9] (GitHub). -/
theorem range_containment_inclusive_witness :
    gitlabBlameScan 1 [glEntry1] =
      some (BlameInfo.mk "Ann" "abc123" "2024-01-01T00:00:00Z")
  ∧ gitlabBlameScan 20 [glEntry1] =
      some (BlameInfo.mk "Ann" "abc123" "2024-01-01T00:00:00Z")
  ∧ githubBlameScan 4 [ghEntry1] =
      some (BlameInfo.mk "Bob" "def456" "2024-02-02T00:00:00Z")
  ∧ githubBlameScan 9 [ghEntry1] =
      some (BlameInfo.mk "Bob" "def456" "2024-02-02T00:00:00Z") := by
  have h := range_containment_inclusive glEntry1 [] ghEntry1 [] 4 [5, 9]
    (by decide) rfl (by decide)
  exact h

/-- C7: when the locator matches no configured provider (in particular when
zero credentials are configured), get_blame_info is None for every file and
line whatever the backends would answer, and every entry of the result
mapping has absent blame. -/
theorem no_provider_blame_unknown
    (a : SastAnalyzer) (env : Env) (u path : String)
    (hgl : ¬(a.gitlab_client = true ∧ strContains u "gitlab" = true))
    (hgh : ¬(a.github_client = true ∧ strContains u "github" = true)) :
    (∀ f line, get_blame_info a env u f line = none)
  ∧ (∀ rs m, run_semgrep env path = Except.ok rs →
      analyze_repository a env u path = Except.ok m →
      ∀ p ∈ m, p.2.blame = none) := by
  have hnone : ∀ f line, get_blame_info a env u f line = none := by
    intro f line
    unfold get_blame_info
    rw [if_neg (by simpa [Bool.and_eq_true] using hgl),
      if_neg (by simpa [Bool.and_eq_true] using hgh)]
  refine ⟨hnone, ?_⟩
  intro rs m hsem hana p hp
  unfold analyze_repository at hana
  rw [hsem] at hana
  rw [← Except.ok.inj hana] at hp
  exact foldInsert_vals (fun v => v.blame = none) findingKey
    (fun r => Enriched.mk r (get_blame_info a env u r.file r.line)) rs []
    (fun q hq => absurd hq (List.not_mem_nil q)) (fun r => hnone r.file r.line) p hp

/-- Witness for C7: a non-matching locator with both clients, and a matching
locator with zero credentials, both yield None. -/
theorem no_provider_blame_unknown_witness :
    get_blame_info tokBoth envGl "https://bitbucket.org/p" "f" 3 = none
  ∧ get_blame_info tokNone envGl "https://gitlab.example.com/g/p" "f" 3 = none := by
  have h1 := no_provider_blame_unknown tokBoth envGl "https://bitbucket.org/p" "."
    (by decide) (by decide)
  have h2 := no_provider_blame_unknown tokNone envGl "https://gitlab.example.com/g/p" "."
    (by decide) (by decide)
  exact ⟨h1.1 "f" 3, h2.1 "f" 3⟩

/-- C8: duplicate file:line keys collapse to one entry holding the
later-processed finding: the mapping's value at any key is built from the
last finding in collaborator order whose key matches. -/
theorem duplicate_key_last_write_wins
    (a : SastAnalyzer) (env : Env) (u path : String) (rs : List SastResult)
    (m : List (String × Enriched)) (k : String)
    (hsem : run_semgrep env path = Except.ok rs)
    (hana : analyze_repository a env u path = Except.ok m) :
    dictFind m k = ((rs.filter fun r => decide (findingKey r = k)).getLast?).map
      (fun r => Enriched.mk r (get_blame_info a env u r.file r.line)) := by
  unfold analyze_repository at hana
  rw [hsem] at hana
  rw [← Except.ok.inj hana]
  rw [dictFind_foldInsert findingKey
    (fun r => Enriched.mk r (get_blame_info a env u r.file r.line)) rs [] k]
  cases (rs.filter fun r => decide (findingKey r = k)).getLast? with
  | none => rfl
  | some r => rfl

/-- Witness for C8: two findings at b.py:5; the mapping holds the second. -/
theorem duplicate_key_last_write_wins_witness :
    dictFind mDup "b.py:5" = some (Enriched.mk d2 none) := by
  have h := duplicate_key_last_write_wins tokNone envDup "u" "." [d1, d2] mDup
    "b.py:5" rfl rfl
  rw [h]
  rfl

/-- C9: a locator containing both markers with both clients configured
dispatches to GitLab: the selection is GitLab and get_blame_info equals the
GitLab lookup whatever the GitHub backend would have answered. -/
theorem gitlab_dispatch_priority
    (a : SastAnalyzer) (env : Env) (u f : String) (line : Int)
    (hgl : a.gitlab_client = true) (_hgh : a.github_client = true)
    (h1 : strContains u "gitlab" = true) (_h2 : strContains u "github" = true) :
    selectProvider a u = some Provider.gitlab
  ∧ get_blame_info a env u f line = _get_gitlab_blame env u f line := by
  have hc : (a.gitlab_client && strContains u "gitlab") = true := by
    rw [hgl, h1]
    rfl
  constructor
  · unfold selectProvider
    rw [if_pos hc]
  · unfold get_blame_info
    rw [if_pos hc]

/-- Witness for C9 at a locator containing both markers. -/
theorem gitlab_dispatch_priority_witness :
    selectProvider tokBoth uBoth = some Provider.gitlab
  ∧ get_blame_info tokBoth envGl uBoth "src/a.py" 10 =
      _get_gitlab_blame envGl uBoth "src/a.py" 10 := by
  have h := gitlab_dispatch_priority tokBoth envGl uBoth "src/a.py" 10
    (by decide) (by decide) (by decide) (by decide)
  exact h

/-- C10: for both providers, when several ranges contain the requested line
the BlameRecord comes from the earliest such range, and the ranges after it
are never consulted (the result does not depend on them). -/
theorem first_matching_range_wins
    (line : Int) (pre post : List GitlabEntry) (e : GitlabEntry)
    (gpre gpost : List GithubEntry) (g : GithubEntry)
    (hpre : ∀ e' ∈ pre, ¬(e'.lines_start ≤ line ∧ line ≤ e'.lines_end))
    (he : e.lines_start ≤ line ∧ line ≤ e.lines_end)
    (hgpre : ∀ g' ∈ gpre, g'.lines ≠ [] ∧ githubContains g' line = false)
    (hg : githubContains g line = true) :
    gitlabBlameScan line (pre ++ e :: post) =
      some (BlameInfo.mk e.commit_author_name e.commit_id e.commit_committed_date)
  ∧ githubBlameScan line (gpre ++ g :: gpost) =
      some (BlameInfo.mk g.commit.author_name g.commit.sha
        g.commit.committed_date.isoformat) :=
  ⟨gitlabBlameScan_first line pre post e hpre he,
   githubBlameScan_first line gpre gpost g hgpre hg⟩

/-- Witness for C10: line 10 is inside the second and the third range; the
record comes from the second. -/
theorem first_matching_range_wins_witness :
    gitlabBlameScan 10 [glEntryA, glEntryB, glEntryC] =
      some (BlameInfo.mk "Yb" "shaB" "2024-03-02")
  ∧ githubBlameScan 10 [ghEntryA, ghEntryB, ghEntryC] =
      some (BlameInfo.mk "Yb" "shaB" "2024-03-02") := by
  have h := first_matching_range_wins 10 [glEntryA] [glEntryC] glEntryB
    [ghEntryA] [ghEntryC] ghEntryB (by decide) (by decide) (by decide) (by decide)
  exact h

end SastBlame
